import Mathlib

/-!
Verification of the expense-tracking screen in `src/Main.js`.

The development shallowly embeds the component's filtering, aggregation and
persistence logic. JavaScript numbers are IEEE-754 binary64 values; every
finite double is a dyadic rational, so finite doubles are modelled as
rationals and JavaScript `+` as exact rational addition followed by rounding
to 53 significant bits (round to nearest, ties to even). This coincides with
IEEE binary64 addition for all magnitudes in the normal finite range, and no
statement below exercises overflow or subnormal behaviour. All arithmetic is
implemented with kernel-computable operations (`mkRat`, `Nat` and `Int`
primitives) so that concrete runs of the model can be evaluated by `decide`.
-/

namespace ExpenseTracker

/-! ### Bit length

`bitlen n` is the least `k` with `n < 2 ^ k`, computed by successive halving
so that it both evaluates fast in the kernel and admits a correctness proof.
-/

/-- One doubling step of the bit-length computation: if `f` is correct below
`2 ^ w`, then `blStep w f` is correct below `2 ^ w * 2 ^ w`. -/
def blStep (w : Nat) (f : Nat → Nat) (n : Nat) : Nat :=
  if n < 2 ^ w then f n else w + f (n / 2 ^ w)

/-- Bit length for `n < 2`. -/
def bl1 (n : Nat) : Nat := if n = 0 then 0 else 1

/-- Bit length of a natural number below `2 ^ 128` (every number handled in
this development is far smaller). -/
def bitlen : Nat → Nat :=
  blStep 64 (blStep 32 (blStep 16 (blStep 8 (blStep 4 (blStep 2 (blStep 1 bl1))))))

/-- `f` computes correct bit lengths on `[0, N)`. -/
def BitlenSpec (f : Nat → Nat) (N : Nat) : Prop :=
  ∀ n, n < N → (n = 0 → f n = 0) ∧ (0 < n → 2 ^ (f n - 1) ≤ n ∧ n < 2 ^ (f n))

lemma bitlenSpec_blStep (w : Nat) (f : Nat → Nat) (h : BitlenSpec f (2 ^ w)) :
    BitlenSpec (blStep w f) (2 ^ w * 2 ^ w) := by
  intro n hn
  unfold blStep
  by_cases hlt : n < 2 ^ w
  · rw [if_pos hlt]
    exact h n hlt
  · rw [if_neg hlt]
    have hw0 : 0 < 2 ^ w := Nat.pos_pow_of_pos w (by omega)
    have hge : 2 ^ w ≤ n := le_of_not_lt hlt
    have hq : n / 2 ^ w < 2 ^ w := Nat.div_lt_of_lt_mul hn
    have hqpos : 0 < n / 2 ^ w := Nat.div_pos hge hw0
    obtain ⟨hlo, hhi⟩ := (h _ hq).2 hqpos
    have hf1 : 1 ≤ f (n / 2 ^ w) := by
      by_contra hc
      push_neg at hc
      have hz : f (n / 2 ^ w) = 0 := by omega
      rw [hz, pow_zero] at hhi
      omega
    refine ⟨fun h0 => by omega, fun _ => ⟨?_, ?_⟩⟩
    · have h2 : w + f (n / 2 ^ w) - 1 = w + (f (n / 2 ^ w) - 1) := by omega
      rw [h2, pow_add]
      calc 2 ^ w * 2 ^ (f (n / 2 ^ w) - 1) ≤ 2 ^ w * (n / 2 ^ w) :=
            Nat.mul_le_mul_left _ hlo
        _ ≤ n := by
            rw [Nat.mul_comm]
            exact Nat.div_mul_le_self n (2 ^ w)
    · rw [pow_add]
      have hstep : n < 2 ^ w * (n / 2 ^ w + 1) := Nat.lt_mul_div_succ n hw0
      calc n < 2 ^ w * (n / 2 ^ w + 1) := hstep
        _ ≤ 2 ^ w * 2 ^ f (n / 2 ^ w) := Nat.mul_le_mul_left _ (Nat.succ_le_of_lt hhi)

lemma bitlen_spec : BitlenSpec bitlen (2 ^ 128) := by
  have h1 : BitlenSpec bl1 (2 ^ 1) := by
    unfold BitlenSpec bl1
    decide
  have h2 : BitlenSpec (blStep 1 bl1) (2 ^ 2) := by
    have := bitlenSpec_blStep 1 bl1 h1
    norm_num at this ⊢
    exact this
  have h4 : BitlenSpec (blStep 2 (blStep 1 bl1)) (2 ^ 4) := by
    have := bitlenSpec_blStep 2 _ h2
    norm_num at this ⊢
    exact this
  have h8 : BitlenSpec (blStep 4 (blStep 2 (blStep 1 bl1))) (2 ^ 8) := by
    have := bitlenSpec_blStep 4 _ h4
    norm_num at this ⊢
    exact this
  have h16 : BitlenSpec (blStep 8 (blStep 4 (blStep 2 (blStep 1 bl1)))) (2 ^ 16) := by
    have := bitlenSpec_blStep 8 _ h8
    norm_num at this ⊢
    exact this
  have h32 : BitlenSpec (blStep 16 (blStep 8 (blStep 4 (blStep 2 (blStep 1 bl1))))) (2 ^ 32) := by
    have := bitlenSpec_blStep 16 _ h16
    norm_num at this ⊢
    exact this
  have h64 : BitlenSpec
      (blStep 32 (blStep 16 (blStep 8 (blStep 4 (blStep 2 (blStep 1 bl1)))))) (2 ^ 64) := by
    have := bitlenSpec_blStep 32 _ h32
    norm_num at this ⊢
    exact this
  have h128 := bitlenSpec_blStep 64 _ h64
  norm_num at h128
  unfold bitlen
  exact h128

lemma bitlen_zero : bitlen 0 = 0 := by decide

lemma bitlen_one : bitlen 1 = 1 := by decide

lemma two_pow_bitlen_pred_le (n : Nat) (h0 : 0 < n) (h : n < 2 ^ 128) :
    2 ^ (bitlen n - 1) ≤ n :=
  ((bitlen_spec n h).2 h0).1

lemma lt_two_pow_bitlen (n : Nat) (h0 : 0 < n) (h : n < 2 ^ 128) : n < 2 ^ bitlen n :=
  ((bitlen_spec n h).2 h0).2

lemma bitlen_pos (n : Nat) (h0 : 0 < n) (h : n < 2 ^ 128) : 1 ≤ bitlen n := by
  by_contra hc
  push_neg at hc
  have hz : bitlen n = 0 := by omega
  have := lt_two_pow_bitlen n h0 h
  rw [hz, pow_zero] at this
  omega

lemma bitlen_le_of_lt (n k : Nat) (hk : k ≤ 128) (h : n < 2 ^ k) : bitlen n ≤ k := by
  rcases Nat.eq_zero_or_pos n with h0 | h0
  · rw [h0, bitlen_zero]
    omega
  · have hn : n < 2 ^ 128 := lt_of_lt_of_le h (Nat.pow_le_pow_right (by omega) hk)
    by_contra hc
    push_neg at hc
    have : 2 ^ k ≤ 2 ^ (bitlen n - 1) := Nat.pow_le_pow_right (by omega) (by omega)
    have := two_pow_bitlen_pred_le n h0 hn
    omega

/-! ### Binary64 rounding

`fl q` rounds the rational `q` to 53 significant bits, round to nearest with
ties to even — the IEEE-754 binary64 rounding of `q` (with unbounded
exponent, which agrees with binary64 on the normal finite range).
-/

/-- Whether `2 ^ d ≤ a / b` for positive naturals `a`, `b`. -/
def qpow2le (a b : Nat) (d : Int) : Bool :=
  if 0 ≤ d then decide (b * 2 ^ d.toNat ≤ a) else decide (b ≤ a * 2 ^ (-d).toNat)

/-- Floor of the base-2 logarithm of `a / b` for positive naturals `a`, `b`:
the unique `e` with `2 ^ e ≤ a / b < 2 ^ (e + 1)`. The bit-length difference
is off by at most one, and the comparison `qpow2le` decides which. -/
def qexp (a b : Nat) : Int :=
  if qpow2le a b ((bitlen a : Int) - (bitlen b : Int)) then (bitlen a : Int) - (bitlen b : Int)
  else (bitlen a : Int) - (bitlen b : Int) - 1

/-- Round the nonnegative rational `a / b` to the nearest natural number,
ties to even. -/
def rne (a b : Nat) : Nat :=
  let q := a / b
  let r := a % b
  if 2 * r < b then q
  else if b < 2 * r then q + 1
  else if q % 2 = 0 then q else q + 1

/-- Binary64 rounding of the positive rational `a / b`: scale into
`[2 ^ 52, 2 ^ 53)`, round to an integer significand (nearest, ties to even)
and scale back. -/
def flPos (a b : Nat) : ℚ :=
  if 0 ≤ 52 - qexp a b then
    mkRat (rne (a * 2 ^ ((52 : Int) - qexp a b).toNat) b : Int) (2 ^ ((52 : Int) - qexp a b).toNat)
  else
    mkRat ((rne a (b * 2 ^ (qexp a b - 52).toNat) : Int) * ((2 : Int) ^ (qexp a b - 52).toNat)) 1

/-- Binary64 rounding of an arbitrary rational. -/
def fl (q : ℚ) : ℚ :=
  if q.num < 0 then -flPos q.num.natAbs q.den
  else if q.num = 0 then 0
  else flPos q.num.natAbs q.den

/-- Exact rational addition implemented with the kernel-computable `mkRat`
smart constructor; equal to `+` on `ℚ` (`qadd_eq_add`). -/
def qadd (a b : ℚ) : ℚ := mkRat (a.num * (b.den : Int) + b.num * (a.den : Int)) (a.den * b.den)

/-- JavaScript `+` on (finite, non-overflowing) numbers: the exact sum,
rounded to binary64. -/
def fadd (x y : ℚ) : ℚ := fl (qadd x y)

lemma qadd_eq_add (a b : ℚ) : qadd a b = a + b := by
  unfold qadd
  rw [Rat.mkRat_eq_div]
  have ha : (a.den : ℚ) ≠ 0 := Nat.cast_ne_zero.mpr a.den_nz
  have hb : (b.den : ℚ) ≠ 0 := Nat.cast_ne_zero.mpr b.den_nz
  conv_rhs => rw [← Rat.num_div_den a, ← Rat.num_div_den b]
  push_cast
  field_simp

lemma rne_one (a : Nat) : rne a 1 = a := by
  unfold rne
  simp [Nat.mod_one, Nat.div_one]

lemma fl_natCast (n : Nat) (h : n < 2 ^ 53) : fl (n : ℚ) = (n : ℚ) := by
  rcases Nat.eq_zero_or_pos n with h0 | h0
  · subst h0
    simp [fl]
  · have hnum : ((n : ℚ)).num = (n : Int) := Rat.num_natCast n
    have hden : ((n : ℚ)).den = 1 := Rat.den_natCast n
    have h128 : n < 2 ^ 128 := lt_of_lt_of_le h (by norm_num)
    have hbl1 : 1 ≤ bitlen n := bitlen_pos n h0 h128
    have hble : bitlen n ≤ 53 := bitlen_le_of_lt n 53 (by omega) h
    have hlow : 2 ^ (bitlen n - 1) ≤ n := two_pow_bitlen_pred_le n h0 h128
    unfold fl
    rw [hnum, hden]
    rw [if_neg (Int.natCast_nonneg n).not_lt, if_neg (by exact_mod_cast h0.ne.symm)]
    have habs : ((n : Int)).natAbs = n := Int.natAbs_ofNat n
    rw [habs]
    have hd : (bitlen n : Int) - (bitlen 1 : Int) = (bitlen n : Int) - 1 := by
      rw [bitlen_one]
      norm_num
    have hdnn : (0 : Int) ≤ (bitlen n : Int) - 1 := by
      omega
    have htoNat : ((bitlen n : Int) - 1).toNat = bitlen n - 1 := by
      omega
    have hq2 : qpow2le n 1 ((bitlen n : Int) - (bitlen 1 : Int)) = true := by
      unfold qpow2le
      rw [hd, if_pos hdnn, htoNat]
      simpa using hlow
    have hqexp : qexp n 1 = (bitlen n : Int) - 1 := by
      unfold qexp
      rw [if_pos hq2, hd]
    unfold flPos
    rw [hqexp]
    rw [if_pos (by omega : (0 : Int) ≤ 52 - ((bitlen n : Int) - 1))]
    have hkt : ((52 : Int) - ((bitlen n : Int) - 1)).toNat = 53 - bitlen n := by
      omega
    rw [hkt, rne_one, Rat.mkRat_eq_div]
    have hpne : ((2 : ℚ) ^ (53 - bitlen n)) ≠ 0 := by positivity
    push_cast
    field_simp

lemma fadd_natCast (a b : Nat) (h : a + b < 2 ^ 53) :
    fadd (a : ℚ) (b : ℚ) = ((a + b : Nat) : ℚ) := by
  unfold fadd
  rw [qadd_eq_add]
  have : (a : ℚ) + (b : ℚ) = ((a + b : Nat) : ℚ) := by
    push_cast
    ring
  rw [this, fl_natCast _ h]

/-! ### Expense records and the totals aggregator

`calculateTotals` (src/Main.js lines 245–254) reduces the visible expenses to
a grand total and a by-category object. The JavaScript object accumulator is
modelled as an insertion-ordered association list — the own-property order of
a plain object for non-index string keys — together with `jsObjectKeys`,
which reproduces the `Object.keys` enumeration order used by the summary
render (integer-like keys first, in ascending numeric order).
-/

/-- An expense record as loaded from the `expenses` table. `amount` is the
numeric `REAL` column value; `date` is the timestamp denoted by the stored
`TEXT` column, as milliseconds of local civil time, with `none` modelling a
string that `new Date` cannot parse (an Invalid Date). -/
structure Expense where
  id : Int
  amount : ℚ
  category : String
  note : String
  date : Option Int
deriving DecidableEq

/-- JavaScript `v || 0` for a finite number `v`: only `0` is falsy. -/
def jsOr0 (v : ℚ) : ℚ := if v = 0 then 0 else v

/-- JavaScript property lookup `acc[c]` on the object modelled as an
association list. -/
def getVal : List (String × ℚ) → String → Option ℚ
  | [], _ => none
  | (k, w) :: t, c => if k = c then some w else getVal t c

/-- `acc[c] || 0`. -/
def getOr0 (acc : List (String × ℚ)) (c : String) : ℚ :=
  match getVal acc c with
  | some v => jsOr0 v
  | none => 0

/-- The assignment `acc[c] = v`: overwrite in place when the key is present
(JavaScript keeps the slot of an existing own property), append otherwise. -/
def setKey : List (String × ℚ) → String → ℚ → List (String × ℚ)
  | [], c, v => [(c, v)]
  | (k, w) :: t, c, v => if k = c then (k, v) :: t else (k, w) :: setKey t c v

/-- The first reduce of `calculateTotals`:
`visibleExpenses.reduce((sum, item) => sum + item.amount, 0)`. -/
def totalOf (l : List Expense) : ℚ :=
  l.foldl (fun sum item => fadd sum item.amount) 0

/-- One step of the second reduce of `calculateTotals`:
`acc[item.category] = (acc[item.category] || 0) + item.amount`. -/
def byCatStep (acc : List (String × ℚ)) (item : Expense) : List (String × ℚ) :=
  setKey acc item.category (fadd (getOr0 acc item.category) item.amount)

/-- The second reduce of `calculateTotals`, starting from the empty object. -/
def byCategoryOf (l : List Expense) : List (String × ℚ) :=
  l.foldl byCatStep []

/-- The result record of `calculateTotals`. -/
structure Totals where
  total : ℚ
  byCategory : List (String × ℚ)
deriving DecidableEq

/-- `calculateTotals` of src/Main.js lines 245–254. -/
def calculateTotals (l : List Expense) : Totals :=
  { total := totalOf l, byCategory := byCategoryOf l }

/-! #### The `Object.keys` enumeration order -/

/-- Decimal digit test. -/
def isDigitChar (c : Char) : Bool := 48 ≤ c.toNat && c.toNat ≤ 57

/-- Numeric value of a digit string. -/
def digitsToNat (ds : List Char) : Nat := ds.foldl (fun n c => 10 * n + (c.toNat - 48)) 0

/-- Numeric value of a string of digits. -/
def strVal (s : String) : Nat := digitsToNat s.data

/-- Whether a property key is an array index in the ECMAScript sense: the
canonical decimal form (no leading zero except `"0"` itself) of an integer
below `2 ^ 32 - 1`. Such keys enumerate before all other string keys. -/
def isArrayIndex (s : String) : Bool :=
  match s.data with
  | [] => false
  | c :: cs =>
      (c :: cs).all isDigitChar && (decide (c ≠ '0') || cs.isEmpty)
        && decide (digitsToNat (c :: cs) < 4294967295)

/-- Insert a key into a list sorted by ascending numeric value. -/
def insertByVal (x : String) : List String → List String
  | [] => [x]
  | y :: t => if strVal x ≤ strVal y then x :: y :: t else y :: insertByVal x t

/-- The `Object.keys` enumeration order for the own property keys `ks`
(given in insertion order): array-index keys first in ascending numeric
order, then the remaining keys in insertion order. -/
def jsObjectKeys (ks : List String) : List String :=
  (ks.filter isArrayIndex).foldr insertByVal [] ++ ks.filter (fun k => !isArrayIndex k)

/-- First-appearance order of a list of category labels. -/
def firstKeys (cs : List String) : List String :=
  cs.foldl (fun ks c => if c ∈ ks then ks else ks ++ [c]) []

/-- The amounts of the records of `l` whose category is `c`, in input order. -/
def categoryAmounts (l : List Expense) (c : String) : List ℚ :=
  (l.filter (fun item => decide (item.category = c))).map Expense.amount

/-! #### Structural lemmas about the by-category reduce -/

lemma jsOr0_eq (v : ℚ) : jsOr0 v = v := by
  unfold jsOr0
  split <;> simp_all

lemma getVal_setKey_self (acc : List (String × ℚ)) (k : String) (v : ℚ) :
    getVal (setKey acc k v) k = some v := by
  induction acc with
  | nil => simp [setKey, getVal]
  | cons p t ih =>
      obtain ⟨a, w⟩ := p
      by_cases hak : a = k
      · subst hak
        simp [setKey, getVal]
      · simp [setKey, getVal, hak, ih]

lemma getVal_setKey_ne (acc : List (String × ℚ)) (k c : String) (v : ℚ) (h : k ≠ c) :
    getVal (setKey acc k v) c = getVal acc c := by
  induction acc with
  | nil => simp [setKey, getVal, h]
  | cons p t ih =>
      obtain ⟨a, w⟩ := p
      by_cases hak : a = k
      · subst hak
        simp [setKey, getVal, h]
      · by_cases hac : a = c
        · subst hac
          simp [setKey, getVal, hak]
        · simp [setKey, getVal, hak, hac, ih]

lemma map_fst_setKey (acc : List (String × ℚ)) (k : String) (v : ℚ) :
    (setKey acc k v).map Prod.fst =
      if k ∈ acc.map Prod.fst then acc.map Prod.fst else acc.map Prod.fst ++ [k] := by
  induction acc with
  | nil => simp [setKey]
  | cons p t ih =>
      obtain ⟨a, w⟩ := p
      by_cases hak : a = k
      · subst hak
        simp [setKey]
      · have hne : ¬ k = a := fun hh => hak hh.symm
        simp only [setKey, if_neg hak, List.map_cons, ih]
        by_cases hm : k ∈ List.map Prod.fst t
        · simp [hm, List.mem_cons]
        · simp [hm, List.mem_cons, hne]

lemma getOr0_setKey_self (acc : List (String × ℚ)) (k : String) (v : ℚ) :
    getOr0 (setKey acc k v) k = v := by
  unfold getOr0
  rw [getVal_setKey_self]
  exact jsOr0_eq v

lemma getOr0_setKey_ne (acc : List (String × ℚ)) (k c : String) (v : ℚ) (h : k ≠ c) :
    getOr0 (setKey acc k v) c = getOr0 acc c := by
  unfold getOr0
  rw [getVal_setKey_ne acc k c v h]

lemma map_fst_foldl (l : List Expense) (acc : List (String × ℚ)) :
    (l.foldl byCatStep acc).map Prod.fst =
      (l.map Expense.category).foldl (fun ks c => if c ∈ ks then ks else ks ++ [c])
        (acc.map Prod.fst) := by
  induction l generalizing acc with
  | nil => rfl
  | cons it t ih =>
      simp only [List.foldl_cons, List.map_cons]
      rw [ih]
      congr 1
      exact map_fst_setKey acc it.category _

/-- The keys of the by-category object, in own-property (insertion) order,
are the category labels in order of first appearance. -/
lemma map_fst_byCategoryOf (l : List Expense) :
    (byCategoryOf l).map Prod.fst = firstKeys (l.map Expense.category) := by
  unfold byCategoryOf firstKeys
  rw [map_fst_foldl]
  rfl

lemma getVal_foldl (l : List Expense) (acc : List (String × ℚ)) (c : String) :
    getVal (l.foldl byCatStep acc) c =
      if (l.filter (fun item => decide (item.category = c))).isEmpty then getVal acc c
      else some (((l.filter (fun item => decide (item.category = c))).map Expense.amount).foldl
        fadd (getOr0 acc c)) := by
  induction l generalizing acc with
  | nil => simp
  | cons it t ih =>
      by_cases hc : it.category = c
      · have hfil : List.filter (fun item => decide (item.category = c)) (it :: t)
            = it :: List.filter (fun item => decide (item.category = c)) t := by
          simp [List.filter_cons, hc]
        rw [List.foldl_cons, hfil, ih]
        have hstep : byCatStep acc it = setKey acc c (fadd (getOr0 acc c) it.amount) := by
          unfold byCatStep
          rw [hc]
        rw [hstep]
        by_cases ht : (t.filter (fun item => decide (item.category = c))).isEmpty
        · have htl : t.filter (fun item => decide (item.category = c)) = [] := by
            simpa [List.isEmpty_iff] using ht
          rw [if_pos ht, htl, getVal_setKey_self]
          simp
        · rw [if_neg ht, getOr0_setKey_self]
          simp [ht]
      · have hfil : List.filter (fun item => decide (item.category = c)) (it :: t)
            = List.filter (fun item => decide (item.category = c)) t := by
          simp [List.filter_cons, hc]
        rw [List.foldl_cons, hfil, ih]
        have hstep : getVal (byCatStep acc it) c = getVal acc c := by
          unfold byCatStep
          exact getVal_setKey_ne acc it.category c _ hc
        have hstep2 : getOr0 (byCatStep acc it) c = getOr0 acc c := by
          unfold byCatStep
          exact getOr0_setKey_ne acc it.category c _ hc
        rw [hstep, hstep2]

/-- Each category label is mapped by the by-category object to the binary64
left-fold of the amounts of that category's records, in input order. -/
lemma getVal_byCategoryOf (l : List Expense) (c : String) :
    getVal (byCategoryOf l) c =
      if (categoryAmounts l c).isEmpty then none
      else some ((categoryAmounts l c).foldl fadd 0) := by
  unfold byCategoryOf categoryAmounts
  rw [getVal_foldl]
  have hiff : ((l.filter (fun item => decide (item.category = c))).map Expense.amount).isEmpty
      = (l.filter (fun item => decide (item.category = c))).isEmpty := by
    cases l.filter (fun item => decide (item.category = c)) <;> rfl
  rw [hiff]
  rfl

lemma jsObjectKeys_of_no_index (ks : List String) (h : ∀ k ∈ ks, isArrayIndex k = false) :
    jsObjectKeys ks = ks := by
  unfold jsObjectKeys
  have h1 : ks.filter isArrayIndex = [] := by
    rw [List.filter_eq_nil_iff]
    intro a ha
    simp [h a ha]
  have h2 : ks.filter (fun k => !isArrayIndex k) = ks := by
    rw [List.filter_eq_self]
    intro a ha
    simp [h a ha]
  rw [h1, h2]
  rfl

/-! ### Time, the calendar, and the expense filter

`getFilteredExpenses` (src/Main.js lines 225–241) compares parsed record
dates against the start of the current week or month. Instants are modelled
as milliseconds of local civil time on an unbounded uniform timeline (the
ECMAScript day/time arithmetic used by the component; daylight-saving
offset changes are outside the model). `Date` comparisons compare these
millisecond values; an Invalid Date (`none`) compares false.

`civilDayOfMonth` is the day-of-month extraction of the proleptic Gregorian
calendar (the standard era-based civil-from-days computation used by
ECMAScript engines, Howard Hinnant's formulation). `new Date(y, m, 1)` with
`y`, `m` the current year and month is then midnight of
`monthStartDay`, the first day of the current month, and `setDate(x)`
replaces the day-of-month by `x` (rolling over month boundaries) while
keeping the time of day.
-/

/-- Milliseconds per day. -/
def msPerDay : Int := 86400000

/-- ECMAScript `Day(t)`: the day number containing instant `t` (floor). -/
def dayOfMs (t : Int) : Int := t / msPerDay

/-- ECMAScript `TimeWithinDay(t)`. -/
def msOfDay (t : Int) : Int := t % msPerDay

/-- Day of the week of day number `d`, `0` = Sunday (day `0`,
1970-01-01, was a Thursday, weekday number `4`). -/
def weekDayOfDay (d : Int) : Int := (d + 4) % 7

/-- `now.getDay()`: day of the week, 0-indexed from Sunday. -/
def getDay (t : Int) : Int := weekDayOfDay (dayOfMs t)

/-- Day of month (1-based) of epoch day `z` in the proleptic Gregorian
calendar: era/year-of-era/day-of-year/month decomposition. -/
def civilDayOfMonth (z : Int) : Int :=
  let z2 := z + 719468
  let era := z2 / 146097
  let doe := z2 - era * 146097
  let yoe := (doe - doe / 1460 + doe / 36524 - doe / 146096) / 365
  let doy := doe - (365 * yoe + yoe / 4 - yoe / 100)
  let mp := (5 * doy + 2) / 153
  doy - (153 * mp + 2) / 5 + 1

/-- The first day of the month containing epoch day `z`. -/
def monthStartDay (z : Int) : Int := z - (civilDayOfMonth z - 1)

/-- `now.getDate()`: the day of the month of the instant `t`. -/
def getDate (t : Int) : Int := civilDayOfMonth (dayOfMs t)

/-- `d.setDate(x)`: move `d` to day-of-month `x` of its current month
(out-of-range values roll over), keeping the time of day. -/
def setDate (t x : Int) : Int := (monthStartDay (dayOfMs t) + (x - 1)) * msPerDay + msOfDay t

/-- `d.setHours(0, 0, 0, 0)`: midnight at the start of `d`'s day. -/
def setHoursZero (t : Int) : Int := dayOfMs t * msPerDay

/-- `startOfWeek` of `getFilteredExpenses`:
`new Date(now)` moved by `setDate(now.getDate() - now.getDay())` and then
`setHours(0, 0, 0, 0)`. -/
def startOfWeek (now : Int) : Int := setHoursZero (setDate now (getDate now - getDay now))

/-- `startOfMonth` of `getFilteredExpenses`:
`new Date(now.getFullYear(), now.getMonth(), 1)`, midnight on the first
calendar day of the current month. -/
def startOfMonth (now : Int) : Int := monthStartDay (dayOfMs now) * msPerDay

/-- The three filter modes offered by the UI. -/
inductive FilterMode where
  | all
  | week
  | month
deriving DecidableEq

/-- `new Date(ex.date) >= bound`: an Invalid Date (`none`) converts to NaN
and every comparison with NaN is false. -/
def jsDateGE (d : Option Int) (bound : Int) : Bool :=
  match d with
  | some t => decide (bound ≤ t)
  | none => false

/-- `getFilteredExpenses` of src/Main.js lines 225–241. -/
def getFilteredExpenses (expenses : List Expense) (filter : FilterMode) (now : Int) :
    List Expense :=
  if filter = FilterMode.all then expenses
  else
    expenses.filter fun ex =>
      match filter with
      | FilterMode.week => jsDateGE ex.date (startOfWeek now)
      | FilterMode.month => jsDateGE ex.date (startOfMonth now)
      | FilterMode.all => true

/-! #### Arithmetic facts about the two boundaries -/

lemma civilDayOfMonth_pos (z : Int) : 1 ≤ civilDayOfMonth z := by
  simp only [civilDayOfMonth]
  omega

lemma monthStartDay_le (z : Int) : monthStartDay z ≤ z := by
  have := civilDayOfMonth_pos z
  unfold monthStartDay
  omega

lemma startOfMonth_le (now : Int) : startOfMonth now ≤ now := by
  unfold startOfMonth
  have h1 : monthStartDay (dayOfMs now) ≤ dayOfMs now := monthStartDay_le _
  have h2 : dayOfMs now * msPerDay ≤ now := by
    unfold dayOfMs msPerDay at h1 ⊢
    omega
  calc monthStartDay (dayOfMs now) * msPerDay ≤ dayOfMs now * msPerDay := by
        have : (0 : Int) < msPerDay := by unfold msPerDay; omega
        exact mul_le_mul_of_nonneg_right h1 (le_of_lt this)
    _ ≤ now := h2

/-- The week boundary written without the calendar detour: midnight of
`now`'s day moved back by the current weekday. -/
lemma startOfWeek_eq (now : Int) :
    startOfWeek now = (dayOfMs now - getDay now) * msPerDay := by
  unfold startOfWeek setHoursZero setDate getDate monthStartDay getDay weekDayOfDay dayOfMs msOfDay
    msPerDay
  omega

lemma startOfWeek_le (now : Int) : startOfWeek now ≤ now := by
  rw [startOfWeek_eq]
  unfold getDay weekDayOfDay dayOfMs msPerDay
  omega

/-- `startOfWeek now` is a midnight. -/
lemma startOfWeek_midnight (now : Int) : startOfWeek now % msPerDay = 0 := by
  rw [startOfWeek_eq]
  unfold msPerDay
  omega

/-- `startOfWeek now` falls on a Sunday. -/
lemma startOfWeek_sunday (now : Int) : weekDayOfDay (dayOfMs (startOfWeek now)) = 0 := by
  rw [startOfWeek_eq]
  unfold getDay weekDayOfDay dayOfMs msPerDay
  omega

/-- `startOfWeek now` is the most recent Sunday midnight: any Sunday
midnight not after `now` is not after it. -/
lemma startOfWeek_greatest (now m : Int) (hmid : m % msPerDay = 0)
    (hsun : weekDayOfDay (dayOfMs m) = 0) (hle : m ≤ now) : m ≤ startOfWeek now := by
  unfold msPerDay at hmid
  unfold weekDayOfDay dayOfMs msPerDay at hsun
  rw [startOfWeek_eq]
  unfold getDay weekDayOfDay dayOfMs msPerDay
  omega

/-! ### The save operation

`saveExpense` (src/Main.js lines 191–215) checks
`if (!amount || !category) return;`, then either updates the row whose id is
`editingId` (`UPDATE expenses SET amount = ?, category = ?, note = ? WHERE
id = ?`) or inserts a new row with a fresh autoincrement id and the current
instant's ISO string as its date. The table is modelled as its list of rows
in id order; the form state is the three text inputs plus the nullable
`editingId`. The result type carries the error channel a validation failure
would use; the code as written never produces an error.
-/

/-- A row of the `expenses` table. `amount` is the `REAL` column: `some q`
a finite numeric value, `none` a stored NaN (what `parseFloat` of a
non-numeric string inserts). `date` is the instant denoted by the stored
ISO `TEXT` column. -/
structure DbRow where
  id : Int
  amount : Option ℚ
  category : String
  note : String
  date : Int
deriving DecidableEq

/-- The component state feeding `saveExpense`: the three text inputs and
the nullable editing id. -/
structure FormState where
  amount : String
  category : String
  note : String
  editingId : Option Int
deriving DecidableEq

/-- The error channel of the save operation. -/
inductive SaveError where
  | validationError
deriving DecidableEq

/-- JavaScript string falsiness: only the empty string is falsy. -/
def jsFalsyStr (s : String) : Bool := s.data.isEmpty

/-- JavaScript truthiness of the nullable `editingId`: `null` and `0` are
falsy. -/
def jsTruthyId : Option Int → Bool
  | none => false
  | some i => decide (i ≠ 0)

/-- Modelled `parseFloat` on the decimal forms relevant here: skip leading
spaces, read an optional sign, then the longest digit run, then an optional
fraction after a dot; `none` (NaN) when no digit can be read. (Exponent
forms and `Infinity`, which no statement below exercises, are outside the
model.) The exact decimal value is rounded to binary64, as `parseFloat`
returns a double. -/
def jsParseFloat (s : String) : Option ℚ :=
  let cs := s.data.dropWhile fun c => decide (c = ' ')
  let sgnBody : Int × List Char :=
    match cs with
    | '-' :: t => (-1, t)
    | '+' :: t => (1, t)
    | _ => (1, cs)
  let ip := sgnBody.2.takeWhile isDigitChar
  let rest := sgnBody.2.dropWhile isDigitChar
  let fp : List Char :=
    match rest with
    | '.' :: t => t.takeWhile isDigitChar
    | _ => []
  if ip.isEmpty && fp.isEmpty then none
  else
    some (fl (mkRat
      (sgnBody.1 * ((digitsToNat ip : Int) * (10 : Int) ^ fp.length + (digitsToNat fp : Int)))
      ((10 : Nat) ^ fp.length)))

/-- `saveExpense` of src/Main.js lines 191–215. `nextId` is the
autoincrement id the insert branch assigns and `now` the instant whose ISO
string it stores. -/
def saveExpense (form : FormState) (db : List DbRow) (nextId now : Int) :
    Except SaveError (List DbRow) :=
  if jsFalsyStr form.amount || jsFalsyStr form.category then Except.ok db
  else if jsTruthyId form.editingId then
    Except.ok (db.map fun r =>
      if r.id = form.editingId.getD 0 then
        { r with
          amount := jsParseFloat form.amount
          category := form.category
          note := form.note }
      else r)
  else
    Except.ok (db ++ [{ id := nextId
                        amount := jsParseFloat form.amount
                        category := form.category
                        note := form.note
                        date := now }])

/-! ### The claims -/

/-- C6: for every list of expense records, filtering with mode All returns
exactly the input list, every record unchanged and in the original order
(identity law). -/
theorem c6_filter_all_identity (expenses : List Expense) (now : Int) :
    getFilteredExpenses expenses FilterMode.all now = expenses := rfl

/-- C7: for every list of expense records and every filter mode, the filter
output is a subsequence of the input: every record of the output occurs in
the input and the input's relative order is preserved. -/
theorem c7_filter_sublist (expenses : List Expense) (mode : FilterMode) (now : Int) :
    (getFilteredExpenses expenses mode now).Sublist expenses := by
  cases mode with
  | all => exact List.Sublist.refl expenses
  | week =>
      simp only [getFilteredExpenses, reduceCtorEq, if_false]
      exact List.filter_sublist expenses
  | month =>
      simp only [getFilteredExpenses, reduceCtorEq, if_false]
      exact List.filter_sublist expenses

/-- C8: the filter is total on every input, including records whose date
string is unparseable (`date = none`, an Invalid Date): the output is still
a sublist of the input, and an invalid-date record is kept exactly under
mode All (under Week and Month the NaN comparison is false, so the record
is excluded). -/
theorem c8_filter_total_invalid_dates (expenses : List Expense) (mode : FilterMode)
    (now : Int) :
    (getFilteredExpenses expenses mode now).length ≤ expenses.length ∧
    (∀ ex ∈ expenses, ex.date = none →
      (ex ∈ getFilteredExpenses expenses mode now ↔ mode = FilterMode.all)) := by
  constructor
  · cases mode with
    | all => exact le_of_eq rfl
    | week =>
        simp only [getFilteredExpenses, reduceCtorEq, if_false]
        exact (List.filter_sublist expenses).length_le
    | month =>
        simp only [getFilteredExpenses, reduceCtorEq, if_false]
        exact (List.filter_sublist expenses).length_le
  · intro ex hex hdate
    cases mode with
    | all => simpa [getFilteredExpenses] using hex
    | week => simp [getFilteredExpenses, List.mem_filter, jsDateGE, hdate]
    | month => simp [getFilteredExpenses, List.mem_filter, jsDateGE, hdate]

/-- C8 witness: a concrete record with an unparseable date is excluded by
the Week filter without any failure. -/
theorem c8_filter_total_invalid_dates_witness :
    ((⟨1, 0, "a", "", none⟩ : Expense) ∈
        getFilteredExpenses [⟨1, 0, "a", "", none⟩] FilterMode.week 0 ↔
      FilterMode.week = FilterMode.all) :=
  (c8_filter_total_invalid_dates [⟨1, 0, "a", "", none⟩] FilterMode.week 0).2
    ⟨1, 0, "a", "", none⟩ (by simp) rfl

/-- C4: filtering with mode Week returns exactly the records whose parsed
timestamp is on or after `startOfWeek now`, and `startOfWeek now` is the
most recent Sunday midnight relative to `now`: it is a midnight, it falls
on weekday 0 (Sunday in the 0-indexed Sunday-first scheme), it is not after
`now`, and every Sunday midnight not after `now` is not after it. -/
theorem c4_filter_week (expenses : List Expense) (now : Int) :
    (∀ ex, ex ∈ getFilteredExpenses expenses FilterMode.week now ↔
      ex ∈ expenses ∧ ∃ t, ex.date = some t ∧ startOfWeek now ≤ t) ∧
    startOfWeek now % msPerDay = 0 ∧
    weekDayOfDay (dayOfMs (startOfWeek now)) = 0 ∧
    startOfWeek now ≤ now ∧
    (∀ m : Int, m % msPerDay = 0 → weekDayOfDay (dayOfMs m) = 0 → m ≤ now →
      m ≤ startOfWeek now) := by
  refine ⟨?_, startOfWeek_midnight now, startOfWeek_sunday now, startOfWeek_le now,
    fun m hmid hsun hle => startOfWeek_greatest now m hmid hsun hle⟩
  intro ex
  simp only [getFilteredExpenses, reduceCtorEq, if_false, List.mem_filter]
  constructor
  · rintro ⟨hmem, hok⟩
    refine ⟨hmem, ?_⟩
    cases hdate : ex.date with
    | none => rw [hdate] at hok; simp [jsDateGE] at hok
    | some t =>
        rw [hdate] at hok
        simp only [jsDateGE, decide_eq_true_eq] at hok
        exact ⟨t, rfl, hok⟩
  · rintro ⟨hmem, t, hdate, hge⟩
    refine ⟨hmem, ?_⟩
    rw [hdate]
    simpa [jsDateGE] using hge

/-- C4 witness: with "now" 100 ms into Monday of week 0, the boundary is
the Sunday midnight one day earlier, and a record stamped exactly at that
boundary is kept (inclusive bound). -/
theorem c4_filter_week_witness :
    ((⟨1, 0, "Food", "", some (3 * msPerDay)⟩ : Expense) ∈
      getFilteredExpenses [⟨1, 0, "Food", "", some (3 * msPerDay)⟩] FilterMode.week
        (4 * msPerDay + 100)) ∧
    (3 * msPerDay : Int) ≤ startOfWeek (4 * msPerDay + 100) := by
  constructor
  · exact ((c4_filter_week [⟨1, 0, "Food", "", some (3 * msPerDay)⟩]
      (4 * msPerDay + 100)).1 _).mpr ⟨by simp, 3 * msPerDay, rfl, by decide⟩
  · exact (c4_filter_week [] (4 * msPerDay + 100)).2.2.2.2 (3 * msPerDay)
      (by decide) (by decide) (by decide)

/-- C5: filtering with mode Month returns exactly the records whose parsed
timestamp is on or after `startOfMonth now`, the midnight starting the
first day of the current month: the boundary is a midnight, it lies
`getDate now - 1` days before the current day (so it is day 1 of the
current month), it is not after `now`, a record stamped exactly at the
boundary is kept (inclusive lower bound), and no upper bound applies — any
record stamped at or after `now` itself is kept. -/
theorem c5_filter_month (expenses : List Expense) (now : Int) :
    (∀ ex, ex ∈ getFilteredExpenses expenses FilterMode.month now ↔
      ex ∈ expenses ∧ ∃ t, ex.date = some t ∧ startOfMonth now ≤ t) ∧
    startOfMonth now % msPerDay = 0 ∧
    dayOfMs (startOfMonth now) = dayOfMs now - (getDate now - 1) ∧
    startOfMonth now ≤ now ∧
    (∀ ex ∈ expenses, ex.date = some (startOfMonth now) →
      ex ∈ getFilteredExpenses expenses FilterMode.month now) ∧
    (∀ ex ∈ expenses, ∀ t, ex.date = some t → now ≤ t →
      ex ∈ getFilteredExpenses expenses FilterMode.month now) := by
  have hmem : ∀ ex, ex ∈ getFilteredExpenses expenses FilterMode.month now ↔
      ex ∈ expenses ∧ ∃ t, ex.date = some t ∧ startOfMonth now ≤ t := by
    intro ex
    simp only [getFilteredExpenses, reduceCtorEq, if_false, List.mem_filter]
    constructor
    · rintro ⟨hm, hok⟩
      refine ⟨hm, ?_⟩
      cases hdate : ex.date with
      | none => rw [hdate] at hok; simp [jsDateGE] at hok
      | some t =>
          rw [hdate] at hok
          simp only [jsDateGE, decide_eq_true_eq] at hok
          exact ⟨t, rfl, hok⟩
    · rintro ⟨hm, t, hdate, hge⟩
      refine ⟨hm, ?_⟩
      rw [hdate]
      simpa [jsDateGE] using hge
  refine ⟨hmem, ?_, ?_, startOfMonth_le now, ?_, ?_⟩
  · unfold startOfMonth msPerDay
    omega
  · unfold startOfMonth getDate monthStartDay
    unfold dayOfMs msPerDay
    omega
  · intro ex hex hdate
    exact (hmem ex).mpr ⟨hex, startOfMonth now, hdate, le_refl _⟩
  · intro ex hex t hdate hnow
    exact (hmem ex).mpr ⟨hex, t, hdate, le_trans (startOfMonth_le now) hnow⟩

/-- C5 witness: at `now` = 100 ms into 1970-01-01, the boundary is instant
0; a record stamped exactly at the boundary and a record with a far-future
timestamp are both kept by the Month filter. -/
theorem c5_filter_month_witness :
    ((⟨1, 0, "a", "", some (startOfMonth 100)⟩ : Expense) ∈
      getFilteredExpenses
        [⟨1, 0, "a", "", some (startOfMonth 100)⟩, ⟨2, 0, "b", "", some 1000000000000000⟩]
        FilterMode.month 100) ∧
    ((⟨2, 0, "b", "", some 1000000000000000⟩ : Expense) ∈
      getFilteredExpenses
        [⟨1, 0, "a", "", some (startOfMonth 100)⟩, ⟨2, 0, "b", "", some 1000000000000000⟩]
        FilterMode.month 100) := by
  constructor
  · exact (c5_filter_month
      [⟨1, 0, "a", "", some (startOfMonth 100)⟩, ⟨2, 0, "b", "", some 1000000000000000⟩]
      100).2.2.2.2.1 _ (by simp) rfl
  · exact (c5_filter_month
      [⟨1, 0, "a", "", some (startOfMonth 100)⟩, ⟨2, 0, "b", "", some 1000000000000000⟩]
      100).2.2.2.2.2 _ (by simp) 1000000000000000 rfl (by decide)

/-- C9: an edit (a save with a truthy `editingId`, which every stored id
is, autoincrement ids being positive) succeeds and can only overwrite the
amount, category and note of the matching row: every row keeps its id and
its date, and every row whose id differs from the edited id is completely
unchanged. The early-return branch changes nothing at all, so the frame
property holds for it as well. -/
theorem c9_edit_frame (form : FormState) (db : List DbRow) (nextId now i : Int)
    (h1 : form.editingId = some i) (h2 : i ≠ 0) :
    ∃ db2, saveExpense form db nextId now = Except.ok db2 ∧
      db2.length = db.length ∧
      ∀ j : Nat,
        db2[j]?.map DbRow.id = db[j]?.map DbRow.id ∧
        db2[j]?.map DbRow.date = db[j]?.map DbRow.date ∧
        (∀ r, db[j]? = some r → r.id ≠ i → db2[j]? = some r) := by
  unfold saveExpense
  by_cases hguard : (jsFalsyStr form.amount || jsFalsyStr form.category) = true
  · rw [if_pos hguard]
    exact ⟨db, rfl, rfl, fun j => ⟨rfl, rfl, fun r hr hne => hr⟩⟩
  · rw [if_neg hguard]
    have htruthy : jsTruthyId form.editingId = true := by
      rw [h1]
      simp [jsTruthyId, h2]
    rw [if_pos htruthy]
    refine ⟨_, rfl, List.length_map db _, fun j => ?_⟩
    have hgetd : form.editingId.getD 0 = i := by
      rw [h1]
      rfl
    cases hj : db[j]? with
    | none => simp [List.getElem?_map, hj]
    | some r =>
        by_cases hid : r.id = form.editingId.getD 0
        · refine ⟨?_, ?_, ?_⟩
          · simp [List.getElem?_map, hj, hid]
          · simp [List.getElem?_map, hj, hid]
          · intro s hs hne
            injection hs with hrs
            subst hrs
            rw [hgetd] at hid
            exact absurd hid hne
        · refine ⟨?_, ?_, ?_⟩
          · simp [List.getElem?_map, hj, hid]
          · simp [List.getElem?_map, hj, hid]
          · intro s hs hne
            injection hs with hrs
            subst hrs
            simp [List.getElem?_map, hj, hid]

/-- C9 witness: editing row 1 of a two-row table with amount "12.5"
succeeds, preserves both ids and dates, and leaves row 2 untouched. -/
theorem c9_edit_frame_witness :
    ∃ db2, saveExpense ⟨"12.5", "Food", "n", some 1⟩
        [⟨1, some 3, "a", "x", 77⟩, ⟨2, some 4, "b", "y", 88⟩] 5 99 = Except.ok db2 ∧
      db2.length = [(⟨1, some 3, "a", "x", 77⟩ : DbRow), ⟨2, some 4, "b", "y", 88⟩].length ∧
      ∀ j : Nat,
        db2[j]?.map DbRow.id =
          [(⟨1, some 3, "a", "x", 77⟩ : DbRow), ⟨2, some 4, "b", "y", 88⟩][j]?.map DbRow.id ∧
        db2[j]?.map DbRow.date =
          [(⟨1, some 3, "a", "x", 77⟩ : DbRow), ⟨2, some 4, "b", "y", 88⟩][j]?.map DbRow.date ∧
        (∀ r, [(⟨1, some 3, "a", "x", 77⟩ : DbRow), ⟨2, some 4, "b", "y", 88⟩][j]? = some r →
          r.id ≠ 1 → db2[j]? = some r) :=
  c9_edit_frame ⟨"12.5", "Food", "n", some 1⟩
    [⟨1, some 3, "a", "x", 77⟩, ⟨2, some 4, "b", "y", 88⟩] 5 99 1 rfl (by decide)

/-- C2 as stated is false: an empty amount together with a nonempty
category is malformed input (no numeric amount), yet the save operation
reports no validation error — it succeeds and silently drops the record
(the database is unchanged and no row is added). -/
theorem c2_counterexample :
    jsParseFloat "" = none ∧
    saveExpense ⟨"", "Food", "", none⟩ [] 1 0 = Except.ok [] :=
  ⟨by decide, rfl⟩

/-- C2 amended: the save operation never surfaces an error to the caller.
Empty amount or empty category makes it a silent no-op, and a non-empty
non-numeric amount in insert mode silently appends a row whose amount is
NaN (`parseFloat` of the input) instead of raising a validation error. -/
theorem c2_save_never_errors (form : FormState) (db : List DbRow) (nextId now : Int) :
    (∃ db2, saveExpense form db nextId now = Except.ok db2) ∧
    ((jsFalsyStr form.amount || jsFalsyStr form.category) = true →
      saveExpense form db nextId now = Except.ok db) ∧
    (jsFalsyStr form.amount = false → jsFalsyStr form.category = false →
      jsTruthyId form.editingId = false → jsParseFloat form.amount = none →
      saveExpense form db nextId now =
        Except.ok (db ++ [{ id := nextId
                            amount := none
                            category := form.category
                            note := form.note
                            date := now }])) := by
  refine ⟨?_, ?_, ?_⟩
  · unfold saveExpense
    by_cases hguard : (jsFalsyStr form.amount || jsFalsyStr form.category) = true
    · rw [if_pos hguard]
      exact ⟨db, rfl⟩
    · rw [if_neg hguard]
      by_cases htruthy : jsTruthyId form.editingId = true
      · rw [if_pos htruthy]
        exact ⟨_, rfl⟩
      · rw [if_neg htruthy]
        exact ⟨_, rfl⟩
  · intro hguard
    unfold saveExpense
    rw [if_pos hguard]
  · intro hfa hfc htr hnan
    unfold saveExpense
    rw [if_neg (by rw [hfa, hfc]; simp), if_neg (by rw [htr]; simp), hnan]

/-- C2 amended witness: the malformed amount "abc" with category "Food" in
insert mode stores a NaN row without any error. -/
theorem c2_save_never_errors_witness :
    saveExpense ⟨"abc", "Food", "", none⟩ [] 7 123 =
      Except.ok [{ id := 7, amount := none, category := "Food", note := "", date := 123 }] :=
  (c2_save_never_errors ⟨"abc", "Food", "", none⟩ [] 7 123).2.2 (by decide) (by decide)
    (by decide) (by decide)

/-- C3 as stated is false on category labels that look like integers: with
categories inserted in the order "b", "1", the rendered `Object.keys` order
is `["1", "b"]` (array-index keys enumerate first), not the insertion order
`["b", "1"]`. -/
theorem c3_counterexample :
    jsObjectKeys
        ((calculateTotals [⟨1, 5, "b", "", none⟩, ⟨2, 7, "1", "", none⟩]).byCategory.map
          Prod.fst) = ["1", "b"] ∧
    firstKeys ([(⟨1, 5, "b", "", none⟩ : Expense), ⟨2, 7, "1", "", none⟩].map Expense.category)
        = ["b", "1"] ∧
    jsObjectKeys
        ((calculateTotals [⟨1, 5, "b", "", none⟩, ⟨2, 7, "1", "", none⟩]).byCategory.map
          Prod.fst) ≠
      firstKeys ([(⟨1, 5, "b", "", none⟩ : Expense), ⟨2, 7, "1", "", none⟩].map
        Expense.category) := by
  refine ⟨by decide, by decide, by decide⟩

/-- C3 amended: the by-category object maps every occurring category label
to the binary64 left-fold of that category's amounts in input order (and
absent labels to nothing); its own-property keys are in first-appearance
order; and the rendered `Object.keys` order equals first-appearance order
whenever no category label is an ECMAScript array index (an integer-like
key), such keys being hoisted to the front in ascending numeric order. -/
theorem c3_bycategory_order_and_values (l : List Expense) :
    (∀ c : String, getVal (calculateTotals l).byCategory c =
      if (categoryAmounts l c).isEmpty then none
      else some ((categoryAmounts l c).foldl fadd 0)) ∧
    ((calculateTotals l).byCategory.map Prod.fst = firstKeys (l.map Expense.category)) ∧
    ((∀ k ∈ firstKeys (l.map Expense.category), isArrayIndex k = false) →
      jsObjectKeys ((calculateTotals l).byCategory.map Prod.fst)
        = firstKeys (l.map Expense.category)) := by
  refine ⟨fun c => getVal_byCategoryOf l c, map_fst_byCategoryOf l, fun h => ?_⟩
  have hkeys : (calculateTotals l).byCategory.map Prod.fst
      = firstKeys (l.map Expense.category) := map_fst_byCategoryOf l
  rw [hkeys]
  exact jsObjectKeys_of_no_index _ h

/-- C3 amended witness: on a concrete three-record list with categories
"Food", "Rent", "Food" the mapping and the rendered order follow the
amended statement. -/
theorem c3_bycategory_order_and_values_witness :
    (getVal (calculateTotals [⟨1, 2, "Food", "", none⟩, ⟨2, 3, "Rent", "", none⟩,
        ⟨3, 4, "Food", "", none⟩]).byCategory "Food" =
      if (categoryAmounts [⟨1, 2, "Food", "", none⟩, ⟨2, 3, "Rent", "", none⟩,
          ⟨3, 4, "Food", "", none⟩] "Food").isEmpty then none
      else some ((categoryAmounts [⟨1, 2, "Food", "", none⟩, ⟨2, 3, "Rent", "", none⟩,
          ⟨3, 4, "Food", "", none⟩] "Food").foldl fadd 0)) ∧
    jsObjectKeys ((calculateTotals [⟨1, 2, "Food", "", none⟩, ⟨2, 3, "Rent", "", none⟩,
        ⟨3, 4, "Food", "", none⟩]).byCategory.map Prod.fst)
      = firstKeys ([(⟨1, 2, "Food", "", none⟩ : Expense), ⟨2, 3, "Rent", "", none⟩,
        ⟨3, 4, "Food", "", none⟩].map Expense.category) :=
  ⟨(c3_bycategory_order_and_values [⟨1, 2, "Food", "", none⟩, ⟨2, 3, "Rent", "", none⟩,
      ⟨3, 4, "Food", "", none⟩]).1 "Food",
    (c3_bycategory_order_and_values [⟨1, 2, "Food", "", none⟩, ⟨2, 3, "Rent", "", none⟩,
      ⟨3, 4, "Food", "", none⟩]).2.2 (by decide)⟩

/-! ### Exactness of binary64 accumulation on small naturals (for C10) -/

/-- A rational that is a natural number. -/
def IsNatQ (q : ℚ) : Prop := ∃ n : Nat, q = (n : ℚ)

lemma IsNatQ.nonneg {q : ℚ} (h : IsNatQ q) : 0 ≤ q := by
  rcases h with ⟨n, rfl⟩
  exact Nat.cast_nonneg n

lemma IsNatQ.add {x y : ℚ} (hx : IsNatQ x) (hy : IsNatQ y) : IsNatQ (x + y) := by
  rcases hx with ⟨m, rfl⟩
  rcases hy with ⟨n, rfl⟩
  exact ⟨m + n, by push_cast; ring⟩

/-- Binary64 addition is exact on natural values whose sum stays below
`2 ^ 53`. -/
lemma fadd_isNat {x y : ℚ} (hx : IsNatQ x) (hy : IsNatQ y) (h : x + y < 2 ^ 53) :
    fadd x y = x + y := by
  rcases hx with ⟨m, rfl⟩
  rcases hy with ⟨n, rfl⟩
  have hmn : m + n < 2 ^ 53 := by
    have hcast : ((m + n : Nat) : ℚ) < ((2 ^ 53 : Nat) : ℚ) := by
      push_cast
      linarith
    exact_mod_cast hcast
  rw [fadd_natCast m n hmn]
  push_cast
  ring

lemma sum_nonneg_of_isNat (qs : List ℚ) (h : ∀ q ∈ qs, IsNatQ q) : 0 ≤ qs.sum := by
  induction qs with
  | nil => simp
  | cons q t ih =>
      rw [List.sum_cons]
      have h1 : 0 ≤ q := (h q (by simp)).nonneg
      have h2 : 0 ≤ t.sum := ih fun x hx => h x (by simp [hx])
      linarith

/-- Folding binary64 addition over natural values is exact while the running
total stays below `2 ^ 53`. -/
lemma foldl_fadd_exact (qs : List ℚ) (a : ℚ) (ha : IsNatQ a) (hq : ∀ q ∈ qs, IsNatQ q)
    (hb : a + qs.sum < 2 ^ 53) : qs.foldl fadd a = a + qs.sum := by
  induction qs generalizing a with
  | nil => simp
  | cons q t ih =>
      have hqn : IsNatQ q := hq q (by simp)
      have htn : ∀ x ∈ t, IsNatQ x := fun x hx => hq x (by simp [hx])
      have htsum : 0 ≤ t.sum := sum_nonneg_of_isNat t htn
      rw [List.sum_cons] at hb
      have hxy : a + q < 2 ^ 53 := by linarith
      rw [List.foldl_cons, fadd_isNat ha hqn hxy,
        ih (a + q) (ha.add hqn) htn (by linarith [hb])]
      rw [List.sum_cons]
      ring

lemma getOr0_eq_getD (acc : List (String × ℚ)) (c : String) :
    getOr0 acc c = (getVal acc c).getD 0 := by
  unfold getOr0
  cases h : getVal acc c with
  | none => rfl
  | some v => simp [jsOr0_eq]

lemma snd_sum_setKey (acc : List (String × ℚ)) (c : String) (w : ℚ) :
    ((setKey acc c w).map Prod.snd).sum
      = (acc.map Prod.snd).sum + w - (getVal acc c).getD 0 := by
  induction acc with
  | nil => simp [setKey, getVal]
  | cons p t ih =>
      obtain ⟨k, v⟩ := p
      by_cases hk : k = c
      · subst hk
        simp [setKey, getVal]
        ring
      · simp [setKey, getVal, hk, ih]
        ring

lemma getValD_isNat (acc : List (String × ℚ)) (c : String)
    (h : ∀ p ∈ acc, IsNatQ p.2) : IsNatQ ((getVal acc c).getD 0) := by
  induction acc with
  | nil => exact ⟨0, by simp [getVal]⟩
  | cons p t ih =>
      obtain ⟨k, v⟩ := p
      by_cases hk : k = c
      · subst hk
        simpa [getVal] using h (k, v) (by simp)
      · simp only [getVal, if_neg hk]
        exact ih fun q hq => h q (by simp [hq])

lemma getValD_le_sum (acc : List (String × ℚ)) (c : String)
    (h : ∀ p ∈ acc, IsNatQ p.2) :
    (getVal acc c).getD 0 ≤ (acc.map Prod.snd).sum := by
  induction acc with
  | nil => simp [getVal]
  | cons p t ih =>
      obtain ⟨k, v⟩ := p
      have hv : 0 ≤ v := (h (k, v) (by simp)).nonneg
      have htail : ∀ p ∈ t, IsNatQ p.2 := fun q hq => h q (by simp [hq])
      have hts : 0 ≤ (t.map Prod.snd).sum := by
        apply sum_nonneg_of_isNat
        intro q hq
        rcases List.mem_map.mp hq with ⟨p, hp, rfl⟩
        exact htail p hp
      by_cases hk : k = c
      · subst hk
        have hgv : getVal ((k, v) :: t) k = some v := by simp [getVal]
        rw [hgv, List.map_cons, List.sum_cons, Option.getD_some]
        linarith
      · have hgv : getVal ((k, v) :: t) c = getVal t c := by simp [getVal, hk]
        rw [hgv, List.map_cons, List.sum_cons]
        have := ih htail
        linarith

lemma mem_snd_setKey (acc : List (String × ℚ)) (c : String) (w x : ℚ)
    (hx : x ∈ (setKey acc c w).map Prod.snd) : x = w ∨ x ∈ acc.map Prod.snd := by
  induction acc with
  | nil => simpa [setKey] using hx
  | cons p t ih =>
      obtain ⟨k, v⟩ := p
      by_cases hk : k = c
      · subst hk
        have hset : setKey ((k, v) :: t) k w = (k, w) :: t := by simp [setKey]
        rw [hset, List.map_cons, List.mem_cons] at hx
        rcases hx with h1 | h1
        · exact Or.inl h1
        · right
          rw [List.map_cons, List.mem_cons]
          exact Or.inr h1
      · have hset : setKey ((k, v) :: t) c w = (k, v) :: setKey t c w := by
          simp [setKey, hk]
        rw [hset, List.map_cons, List.mem_cons] at hx
        rcases hx with h1 | h1
        · right
          rw [List.map_cons, List.mem_cons]
          exact Or.inl h1
        · rcases ih h1 with h2 | h2
          · exact Or.inl h2
          · right
            rw [List.map_cons, List.mem_cons]
            exact Or.inr h2

/-- Under the same no-rounding conditions, the by-category reduce preserves
the sum of its values: afterwards they total the accumulated amounts. -/
lemma foldl_byCat_sum_exact (l : List Expense) (acc : List (String × ℚ))
    (hl : ∀ r ∈ l, IsNatQ r.amount) (hacc : ∀ p ∈ acc, IsNatQ p.2)
    (hb : (acc.map Prod.snd).sum + (l.map Expense.amount).sum < 2 ^ 53) :
    ((l.foldl byCatStep acc).map Prod.snd).sum
      = (acc.map Prod.snd).sum + (l.map Expense.amount).sum := by
  induction l generalizing acc with
  | nil => simp
  | cons it t ih =>
      have hamt : IsNatQ it.amount := hl it (by simp)
      have htl : ∀ r ∈ t, IsNatQ r.amount := fun r hr => hl r (by simp [hr])
      have hg : IsNatQ ((getVal acc it.category).getD 0) := getValD_isNat acc _ hacc
      have hgle : (getVal acc it.category).getD 0 ≤ (acc.map Prod.snd).sum :=
        getValD_le_sum acc _ hacc
      have htsum : 0 ≤ (t.map Expense.amount).sum := by
        apply sum_nonneg_of_isNat
        intro q hq
        rcases List.mem_map.mp hq with ⟨r, hr, rfl⟩
        exact htl r hr
      rw [List.map_cons, List.sum_cons] at hb
      have hamtnn : 0 ≤ it.amount := hamt.nonneg
      have hxy : (getVal acc it.category).getD 0 + it.amount < 2 ^ 53 := by linarith
      have hstep : byCatStep acc it
          = setKey acc it.category ((getVal acc it.category).getD 0 + it.amount) := by
        unfold byCatStep
        rw [getOr0_eq_getD, fadd_isNat hg hamt hxy]
      rw [List.foldl_cons, hstep]
      have hacc2 : ∀ p ∈ setKey acc it.category ((getVal acc it.category).getD 0 + it.amount),
          IsNatQ p.2 := by
        intro p hp
        have hmem : p.2 ∈ (setKey acc it.category
            ((getVal acc it.category).getD 0 + it.amount)).map Prod.snd :=
          List.mem_map.mpr ⟨p, hp, rfl⟩
        rcases mem_snd_setKey acc it.category _ p.2 hmem with h | h
        · rw [h]
          exact hg.add hamt
        · rcases List.mem_map.mp h with ⟨q, hq, hqe⟩
          rw [← hqe]
          exact hacc q hq
      have hsum2 : ((setKey acc it.category
            ((getVal acc it.category).getD 0 + it.amount)).map Prod.snd).sum
          = (acc.map Prod.snd).sum + it.amount := by
        rw [snd_sum_setKey]
        ring
      rw [ih _ htl hacc2 (by rw [hsum2]; linarith), hsum2, List.map_cons, List.sum_cons]
      ring

/-- C10 as stated is false: with amounts 1 ("A"), `2 ^ 53` ("B"), 1 ("A"),
both additions of 1 to the running total are absorbed (ties to even), so the
grand total is `2 ^ 53` while the by-category values are 2 and `2 ^ 53`,
which sum to `2 ^ 53 + 2`. -/
theorem c10_counterexample :
    (calculateTotals [⟨1, 1, "A", "", none⟩, ⟨2, 9007199254740992, "B", "", none⟩,
        ⟨3, 1, "A", "", none⟩]).total ≠
      ((calculateTotals [⟨1, 1, "A", "", none⟩, ⟨2, 9007199254740992, "B", "", none⟩,
        ⟨3, 1, "A", "", none⟩]).byCategory.map Prod.snd).sum := by
  have h1 : (calculateTotals [⟨1, 1, "A", "", none⟩, ⟨2, 9007199254740992, "B", "", none⟩,
      ⟨3, 1, "A", "", none⟩]).total = (9007199254740992 : ℚ) := by decide
  have h2 : (calculateTotals [⟨1, 1, "A", "", none⟩, ⟨2, 9007199254740992, "B", "", none⟩,
      ⟨3, 1, "A", "", none⟩]).byCategory
      = [("A", (2 : ℚ)), ("B", (9007199254740992 : ℚ))] := by decide
  rw [h1, h2]
  simp only [List.map_cons, List.map_nil, List.sum_cons, List.sum_nil]
  norm_num

/-- C10 amended: the grand total and the by-category breakdown are each
binary64 accumulations and need not agree exactly once an addition rounds;
they do agree whenever no addition rounds — in particular for every record
list whose amounts are natural numbers with exact sum below `2 ^ 53`. -/
theorem c10_total_consistency (l : List Expense)
    (hl : ∀ r ∈ l, ∃ n : Nat, r.amount = (n : ℚ))
    (hb : (l.map Expense.amount).sum < 2 ^ 53) :
    (calculateTotals l).total = ((calculateTotals l).byCategory.map Prod.snd).sum := by
  have hl2 : ∀ r ∈ l, IsNatQ r.amount := hl
  have hAll : ∀ q ∈ l.map Expense.amount, IsNatQ q := by
    intro q hq
    rcases List.mem_map.mp hq with ⟨r, hr, rfl⟩
    exact hl2 r hr
  have htot : (calculateTotals l).total = (l.map Expense.amount).sum := by
    show totalOf l = _
    unfold totalOf
    rw [← List.foldl_map]
    have := foldl_fadd_exact (l.map Expense.amount) 0 ⟨0, by simp⟩ hAll (by simpa using hb)
    simpa using this
  have hby : ((calculateTotals l).byCategory.map Prod.snd).sum
      = (l.map Expense.amount).sum := by
    show ((byCategoryOf l).map Prod.snd).sum = _
    unfold byCategoryOf
    have := foldl_byCat_sum_exact l [] hl2 (by simp) (by simpa using hb)
    simpa using this
  rw [htot, hby]

/-- C10 amended witness: with natural amounts 3, 4, 5 in categories "Food",
"Rent", "Food" the total 12 equals the sum of the by-category values. -/
theorem c10_total_consistency_witness :
    (calculateTotals [⟨1, 3, "Food", "", none⟩, ⟨2, 4, "Rent", "", none⟩,
        ⟨3, 5, "Food", "", none⟩]).total =
      ((calculateTotals [⟨1, 3, "Food", "", none⟩, ⟨2, 4, "Rent", "", none⟩,
        ⟨3, 5, "Food", "", none⟩]).byCategory.map Prod.snd).sum :=
  c10_total_consistency
    [⟨1, 3, "Food", "", none⟩, ⟨2, 4, "Rent", "", none⟩, ⟨3, 5, "Food", "", none⟩]
    (by
      intro r hr
      simp only [List.mem_cons, List.not_mem_nil, or_false] at hr
      rcases hr with h | h | h <;> subst h
      · exact ⟨3, by norm_num⟩
      · exact ⟨4, by norm_num⟩
      · exact ⟨5, by norm_num⟩)
    (by
      simp only [List.map_cons, List.map_nil, List.sum_cons, List.sum_nil]
      norm_num)

/-! ### Repeated binary64 accumulation (for C1)

The grand total over `n` copies of one record is `n` iterations of `fadd`.
The 10000-step run for C1 is evaluated by the kernel in 100-step slices
(`centChunk0` … `centChunk99`), chained by `iterFadd_chain`.
-/

/-- Iterate `fun s => fadd s x`. -/
def iterFadd (x : ℚ) : Nat → ℚ → ℚ
  | 0, s => s
  | n + 1, s => iterFadd x n (fadd s x)

lemma iterFadd_add (x : ℚ) (m n : Nat) (s : ℚ) :
    iterFadd x (m + n) s = iterFadd x n (iterFadd x m s) := by
  induction m generalizing s with
  | zero => rw [Nat.zero_add]; rfl
  | succ k ih =>
      have hmn : k + 1 + n = (k + n) + 1 := by omega
      rw [hmn]
      show iterFadd x (k + n) (fadd s x) = _
      rw [ih (fadd s x)]
      rfl

lemma iterFadd_chain (x : ℚ) (m n : Nat) (s t u : ℚ) (h1 : iterFadd x m s = t)
    (h2 : iterFadd x n t = u) : iterFadd x (m + n) s = u := by
  rw [iterFadd_add, h1, h2]

lemma totalOf_replicate (n : Nat) (r : Expense) :
    totalOf (List.replicate n r) = iterFadd r.amount n 0 := by
  unfold totalOf
  have hgen : ∀ (m : Nat) (s : ℚ),
      (List.replicate m r).foldl (fun sum item => fadd sum item.amount) s
        = iterFadd r.amount m s := by
    intro m
    induction m with
    | zero => intro s; rfl
    | succ k ih =>
        intro s
        rw [List.replicate_succ, List.foldl_cons]
        exact ih _
  exact hgen n 0

/-- The binary64 value of the decimal literal 0.01: the amount every record
of the C1 run carries. -/
def cent : ℚ := fl (mkRat 1 100)

/-- One record of amount 0.01. -/
def centExpense : Expense := ⟨1, cent, "Misc", "", none⟩

/-- Ten thousand records of amount 0.01. -/
def centList : List Expense := List.replicate 10000 centExpense

set_option maxRecDepth 200000

lemma centChunk0 : iterFadd cent 100 (0 : ℚ) = mkRat 4503599627370499 4503599627370496 := by decide

lemma centChunk1 : iterFadd cent 100 (mkRat 4503599627370499 4503599627370496) = mkRat 4503599627370499 2251799813685248 := by decide

lemma centChunk2 : iterFadd cent 100 (mkRat 4503599627370499 2251799813685248) = mkRat 6755399441055699 2251799813685248 := by decide

lemma centChunk3 : iterFadd cent 100 (mkRat 6755399441055699 2251799813685248) = mkRat 9007199254740899 2251799813685248 := by decide

lemma centChunk4 : iterFadd cent 100 (mkRat 9007199254740899 2251799813685248) = mkRat 2814749767106525 562949953421312 := by decide

lemma centChunk5 : iterFadd cent 100 (mkRat 2814749767106525 562949953421312) = mkRat 3377699720527825 562949953421312 := by decide

lemma centChunk6 : iterFadd cent 100 (mkRat 3377699720527825 562949953421312) = mkRat 3940649673949125 562949953421312 := by decide

lemma centChunk7 : iterFadd cent 100 (mkRat 3940649673949125 562949953421312) = mkRat 4503599627370425 562949953421312 := by decide

lemma centChunk8 : iterFadd cent 100 (mkRat 4503599627370425 562949953421312) = mkRat 5066549580791725 562949953421312 := by decide

lemma centChunk9 : iterFadd cent 100 (mkRat 5066549580791725 562949953421312) = mkRat 5629499534213025 562949953421312 := by decide

lemma centChunk10 : iterFadd cent 100 (mkRat 5629499534213025 562949953421312) = mkRat 6192449487634325 562949953421312 := by decide

lemma centChunk11 : iterFadd cent 100 (mkRat 6192449487634325 562949953421312) = mkRat 6755399441055625 562949953421312 := by decide

lemma centChunk12 : iterFadd cent 100 (mkRat 6755399441055625 562949953421312) = mkRat 7318349394476925 562949953421312 := by decide

lemma centChunk13 : iterFadd cent 100 (mkRat 7318349394476925 562949953421312) = mkRat 7881299347898225 562949953421312 := by decide

lemma centChunk14 : iterFadd cent 100 (mkRat 7881299347898225 562949953421312) = mkRat 8444249301319525 562949953421312 := by decide

lemma centChunk15 : iterFadd cent 100 (mkRat 8444249301319525 562949953421312) = mkRat 9007199254740825 562949953421312 := by decide

lemma centChunk16 : iterFadd cent 100 (mkRat 9007199254740825 562949953421312) = mkRat 598134325510139 35184372088832 := by decide

lemma centChunk17 : iterFadd cent 100 (mkRat 598134325510139 35184372088832) = mkRat 1266637395197953 70368744177664 := by decide

lemma centChunk18 : iterFadd cent 100 (mkRat 1266637395197953 70368744177664) = mkRat 334251534843907 17592186044416 := by decide

lemma centChunk19 : iterFadd cent 100 (mkRat 334251534843907 17592186044416) = mkRat 1407374883553303 70368744177664 := by decide

lemma centChunk20 : iterFadd cent 100 (mkRat 1407374883553303 70368744177664) = mkRat 738871813865489 35184372088832 := by decide

lemma centChunk21 : iterFadd cent 100 (mkRat 738871813865489 35184372088832) = mkRat 1548112371908653 70368744177664 := by decide

lemma centChunk22 : iterFadd cent 100 (mkRat 1548112371908653 70368744177664) = mkRat 202310139510791 8796093022208 := by decide

lemma centChunk23 : iterFadd cent 100 (mkRat 202310139510791 8796093022208) = mkRat 1688849860264003 70368744177664 := by decide

lemma centChunk24 : iterFadd cent 100 (mkRat 1688849860264003 70368744177664) = mkRat 879609302220839 35184372088832 := by decide

lemma centChunk25 : iterFadd cent 100 (mkRat 879609302220839 35184372088832) = mkRat 1829587348619353 70368744177664 := by decide

lemma centChunk26 : iterFadd cent 100 (mkRat 1829587348619353 70368744177664) = mkRat 474989023199257 17592186044416 := by decide

lemma centChunk27 : iterFadd cent 100 (mkRat 474989023199257 17592186044416) = mkRat 1970324836974703 70368744177664 := by decide

lemma centChunk28 : iterFadd cent 100 (mkRat 1970324836974703 70368744177664) = mkRat 1020346790576189 35184372088832 := by decide

lemma centChunk29 : iterFadd cent 100 (mkRat 1020346790576189 35184372088832) = mkRat 2111062325330053 70368744177664 := by decide

lemma centChunk30 : iterFadd cent 100 (mkRat 2111062325330053 70368744177664) = mkRat 136339441844233 4398046511104 := by decide

lemma centChunk31 : iterFadd cent 100 (mkRat 136339441844233 4398046511104) = mkRat 2251799813685403 70368744177664 := by decide

lemma centChunk32 : iterFadd cent 100 (mkRat 2251799813685403 70368744177664) = mkRat 2322168557863053 70368744177664 := by decide

lemma centChunk33 : iterFadd cent 100 (mkRat 2322168557863053 70368744177664) = mkRat 2392537302040703 70368744177664 := by decide

lemma centChunk34 : iterFadd cent 100 (mkRat 2392537302040703 70368744177664) = mkRat 2462906046218353 70368744177664 := by decide

lemma centChunk35 : iterFadd cent 100 (mkRat 2462906046218353 70368744177664) = mkRat 2533274790396003 70368744177664 := by decide

lemma centChunk36 : iterFadd cent 100 (mkRat 2533274790396003 70368744177664) = mkRat 2603643534573653 70368744177664 := by decide

lemma centChunk37 : iterFadd cent 100 (mkRat 2603643534573653 70368744177664) = mkRat 2674012278751303 70368744177664 := by decide

lemma centChunk38 : iterFadd cent 100 (mkRat 2674012278751303 70368744177664) = mkRat 2744381022928953 70368744177664 := by decide

lemma centChunk39 : iterFadd cent 100 (mkRat 2744381022928953 70368744177664) = mkRat 2814749767106603 70368744177664 := by decide

lemma centChunk40 : iterFadd cent 100 (mkRat 2814749767106603 70368744177664) = mkRat 2885118511284253 70368744177664 := by decide

lemma centChunk41 : iterFadd cent 100 (mkRat 2885118511284253 70368744177664) = mkRat 2955487255461903 70368744177664 := by decide

lemma centChunk42 : iterFadd cent 100 (mkRat 2955487255461903 70368744177664) = mkRat 3025855999639553 70368744177664 := by decide

lemma centChunk43 : iterFadd cent 100 (mkRat 3025855999639553 70368744177664) = mkRat 3096224743817203 70368744177664 := by decide

lemma centChunk44 : iterFadd cent 100 (mkRat 3096224743817203 70368744177664) = mkRat 3166593487994853 70368744177664 := by decide

lemma centChunk45 : iterFadd cent 100 (mkRat 3166593487994853 70368744177664) = mkRat 3236962232172503 70368744177664 := by decide

lemma centChunk46 : iterFadd cent 100 (mkRat 3236962232172503 70368744177664) = mkRat 3307330976350153 70368744177664 := by decide

lemma centChunk47 : iterFadd cent 100 (mkRat 3307330976350153 70368744177664) = mkRat 3377699720527803 70368744177664 := by decide

lemma centChunk48 : iterFadd cent 100 (mkRat 3377699720527803 70368744177664) = mkRat 3448068464705453 70368744177664 := by decide

lemma centChunk49 : iterFadd cent 100 (mkRat 3448068464705453 70368744177664) = mkRat 3518437208883103 70368744177664 := by decide

lemma centChunk50 : iterFadd cent 100 (mkRat 3518437208883103 70368744177664) = mkRat 3588805953060753 70368744177664 := by decide

lemma centChunk51 : iterFadd cent 100 (mkRat 3588805953060753 70368744177664) = mkRat 3659174697238403 70368744177664 := by decide

lemma centChunk52 : iterFadd cent 100 (mkRat 3659174697238403 70368744177664) = mkRat 3729543441416053 70368744177664 := by decide

lemma centChunk53 : iterFadd cent 100 (mkRat 3729543441416053 70368744177664) = mkRat 3799912185593703 70368744177664 := by decide

lemma centChunk54 : iterFadd cent 100 (mkRat 3799912185593703 70368744177664) = mkRat 3870280929771353 70368744177664 := by decide

lemma centChunk55 : iterFadd cent 100 (mkRat 3870280929771353 70368744177664) = mkRat 3940649673949003 70368744177664 := by decide

lemma centChunk56 : iterFadd cent 100 (mkRat 3940649673949003 70368744177664) = mkRat 4011018418126653 70368744177664 := by decide

lemma centChunk57 : iterFadd cent 100 (mkRat 4011018418126653 70368744177664) = mkRat 4081387162304303 70368744177664 := by decide

lemma centChunk58 : iterFadd cent 100 (mkRat 4081387162304303 70368744177664) = mkRat 4151755906481953 70368744177664 := by decide

lemma centChunk59 : iterFadd cent 100 (mkRat 4151755906481953 70368744177664) = mkRat 4222124650659603 70368744177664 := by decide

lemma centChunk60 : iterFadd cent 100 (mkRat 4222124650659603 70368744177664) = mkRat 4292493394837253 70368744177664 := by decide

lemma centChunk61 : iterFadd cent 100 (mkRat 4292493394837253 70368744177664) = mkRat 4362862139014903 70368744177664 := by decide

lemma centChunk62 : iterFadd cent 100 (mkRat 4362862139014903 70368744177664) = mkRat 4433230883192553 70368744177664 := by decide

lemma centChunk63 : iterFadd cent 100 (mkRat 4433230883192553 70368744177664) = mkRat 4503599627370203 70368744177664 := by decide

lemma centChunk64 : iterFadd cent 100 (mkRat 4503599627370203 70368744177664) = mkRat 4573968371547903 70368744177664 := by decide

lemma centChunk65 : iterFadd cent 100 (mkRat 4573968371547903 70368744177664) = mkRat 4644337115725603 70368744177664 := by decide

lemma centChunk66 : iterFadd cent 100 (mkRat 4644337115725603 70368744177664) = mkRat 4714705859903303 70368744177664 := by decide

lemma centChunk67 : iterFadd cent 100 (mkRat 4714705859903303 70368744177664) = mkRat 4785074604081003 70368744177664 := by decide

lemma centChunk68 : iterFadd cent 100 (mkRat 4785074604081003 70368744177664) = mkRat 4855443348258703 70368744177664 := by decide

lemma centChunk69 : iterFadd cent 100 (mkRat 4855443348258703 70368744177664) = mkRat 4925812092436403 70368744177664 := by decide

lemma centChunk70 : iterFadd cent 100 (mkRat 4925812092436403 70368744177664) = mkRat 4996180836614103 70368744177664 := by decide

lemma centChunk71 : iterFadd cent 100 (mkRat 4996180836614103 70368744177664) = mkRat 5066549580791803 70368744177664 := by decide

lemma centChunk72 : iterFadd cent 100 (mkRat 5066549580791803 70368744177664) = mkRat 5136918324969503 70368744177664 := by decide

lemma centChunk73 : iterFadd cent 100 (mkRat 5136918324969503 70368744177664) = mkRat 5207287069147203 70368744177664 := by decide

lemma centChunk74 : iterFadd cent 100 (mkRat 5207287069147203 70368744177664) = mkRat 5277655813324903 70368744177664 := by decide

lemma centChunk75 : iterFadd cent 100 (mkRat 5277655813324903 70368744177664) = mkRat 5348024557502603 70368744177664 := by decide

lemma centChunk76 : iterFadd cent 100 (mkRat 5348024557502603 70368744177664) = mkRat 5418393301680303 70368744177664 := by decide

lemma centChunk77 : iterFadd cent 100 (mkRat 5418393301680303 70368744177664) = mkRat 5488762045858003 70368744177664 := by decide

lemma centChunk78 : iterFadd cent 100 (mkRat 5488762045858003 70368744177664) = mkRat 5559130790035703 70368744177664 := by decide

lemma centChunk79 : iterFadd cent 100 (mkRat 5559130790035703 70368744177664) = mkRat 5629499534213403 70368744177664 := by decide

lemma centChunk80 : iterFadd cent 100 (mkRat 5629499534213403 70368744177664) = mkRat 5699868278391103 70368744177664 := by decide

lemma centChunk81 : iterFadd cent 100 (mkRat 5699868278391103 70368744177664) = mkRat 5770237022568803 70368744177664 := by decide

lemma centChunk82 : iterFadd cent 100 (mkRat 5770237022568803 70368744177664) = mkRat 5840605766746503 70368744177664 := by decide

lemma centChunk83 : iterFadd cent 100 (mkRat 5840605766746503 70368744177664) = mkRat 5910974510924203 70368744177664 := by decide

lemma centChunk84 : iterFadd cent 100 (mkRat 5910974510924203 70368744177664) = mkRat 5981343255101903 70368744177664 := by decide

lemma centChunk85 : iterFadd cent 100 (mkRat 5981343255101903 70368744177664) = mkRat 6051711999279603 70368744177664 := by decide

lemma centChunk86 : iterFadd cent 100 (mkRat 6051711999279603 70368744177664) = mkRat 6122080743457303 70368744177664 := by decide

lemma centChunk87 : iterFadd cent 100 (mkRat 6122080743457303 70368744177664) = mkRat 6192449487635003 70368744177664 := by decide

lemma centChunk88 : iterFadd cent 100 (mkRat 6192449487635003 70368744177664) = mkRat 6262818231812703 70368744177664 := by decide

lemma centChunk89 : iterFadd cent 100 (mkRat 6262818231812703 70368744177664) = mkRat 6333186975990403 70368744177664 := by decide

lemma centChunk90 : iterFadd cent 100 (mkRat 6333186975990403 70368744177664) = mkRat 6403555720168103 70368744177664 := by decide

lemma centChunk91 : iterFadd cent 100 (mkRat 6403555720168103 70368744177664) = mkRat 6473924464345803 70368744177664 := by decide

lemma centChunk92 : iterFadd cent 100 (mkRat 6473924464345803 70368744177664) = mkRat 6544293208523503 70368744177664 := by decide

lemma centChunk93 : iterFadd cent 100 (mkRat 6544293208523503 70368744177664) = mkRat 6614661952701203 70368744177664 := by decide

lemma centChunk94 : iterFadd cent 100 (mkRat 6614661952701203 70368744177664) = mkRat 6685030696878903 70368744177664 := by decide

lemma centChunk95 : iterFadd cent 100 (mkRat 6685030696878903 70368744177664) = mkRat 6755399441056603 70368744177664 := by decide

lemma centChunk96 : iterFadd cent 100 (mkRat 6755399441056603 70368744177664) = mkRat 6825768185234303 70368744177664 := by decide

lemma centChunk97 : iterFadd cent 100 (mkRat 6825768185234303 70368744177664) = mkRat 6896136929412003 70368744177664 := by decide

lemma centChunk98 : iterFadd cent 100 (mkRat 6896136929412003 70368744177664) = mkRat 6966505673589703 70368744177664 := by decide

lemma centChunk99 : iterFadd cent 100 (mkRat 6966505673589703 70368744177664) = mkRat 7036874417767403 70368744177664 := by decide

lemma centTotal : iterFadd cent 10000 (0 : ℚ) = mkRat 7036874417767403 70368744177664 :=
  (iterFadd_chain cent 100 9900 _ _ _ centChunk0 (iterFadd_chain cent 100 9800 _ _ _ centChunk1 (iterFadd_chain cent 100 9700 _ _ _ centChunk2 (iterFadd_chain cent 100 9600 _ _ _ centChunk3 (iterFadd_chain cent 100 9500 _ _ _ centChunk4 (iterFadd_chain cent 100 9400 _ _ _ centChunk5 (iterFadd_chain cent 100 9300 _ _ _ centChunk6 (iterFadd_chain cent 100 9200 _ _ _ centChunk7 (iterFadd_chain cent 100 9100 _ _ _ centChunk8 (iterFadd_chain cent 100 9000 _ _ _ centChunk9 (iterFadd_chain cent 100 8900 _ _ _ centChunk10 (iterFadd_chain cent 100 8800 _ _ _ centChunk11 (iterFadd_chain cent 100 8700 _ _ _ centChunk12 (iterFadd_chain cent 100 8600 _ _ _ centChunk13 (iterFadd_chain cent 100 8500 _ _ _ centChunk14 (iterFadd_chain cent 100 8400 _ _ _ centChunk15 (iterFadd_chain cent 100 8300 _ _ _ centChunk16 (iterFadd_chain cent 100 8200 _ _ _ centChunk17 (iterFadd_chain cent 100 8100 _ _ _ centChunk18 (iterFadd_chain cent 100 8000 _ _ _ centChunk19 (iterFadd_chain cent 100 7900 _ _ _ centChunk20 (iterFadd_chain cent 100 7800 _ _ _ centChunk21 (iterFadd_chain cent 100 7700 _ _ _ centChunk22 (iterFadd_chain cent 100 7600 _ _ _ centChunk23 (iterFadd_chain cent 100 7500 _ _ _ centChunk24 (iterFadd_chain cent 100 7400 _ _ _ centChunk25 (iterFadd_chain cent 100 7300 _ _ _ centChunk26 (iterFadd_chain cent 100 7200 _ _ _ centChunk27 (iterFadd_chain cent 100 7100 _ _ _ centChunk28 (iterFadd_chain cent 100 7000 _ _ _ centChunk29 (iterFadd_chain cent 100 6900 _ _ _ centChunk30 (iterFadd_chain cent 100 6800 _ _ _ centChunk31 (iterFadd_chain cent 100 6700 _ _ _ centChunk32 (iterFadd_chain cent 100 6600 _ _ _ centChunk33 (iterFadd_chain cent 100 6500 _ _ _ centChunk34 (iterFadd_chain cent 100 6400 _ _ _ centChunk35 (iterFadd_chain cent 100 6300 _ _ _ centChunk36 (iterFadd_chain cent 100 6200 _ _ _ centChunk37 (iterFadd_chain cent 100 6100 _ _ _ centChunk38 (iterFadd_chain cent 100 6000 _ _ _ centChunk39 (iterFadd_chain cent 100 5900 _ _ _ centChunk40 (iterFadd_chain cent 100 5800 _ _ _ centChunk41 (iterFadd_chain cent 100 5700 _ _ _ centChunk42 (iterFadd_chain cent 100 5600 _ _ _ centChunk43 (iterFadd_chain cent 100 5500 _ _ _ centChunk44 (iterFadd_chain cent 100 5400 _ _ _ centChunk45 (iterFadd_chain cent 100 5300 _ _ _ centChunk46 (iterFadd_chain cent 100 5200 _ _ _ centChunk47 (iterFadd_chain cent 100 5100 _ _ _ centChunk48 (iterFadd_chain cent 100 5000 _ _ _ centChunk49 (iterFadd_chain cent 100 4900 _ _ _ centChunk50 (iterFadd_chain cent 100 4800 _ _ _ centChunk51 (iterFadd_chain cent 100 4700 _ _ _ centChunk52 (iterFadd_chain cent 100 4600 _ _ _ centChunk53 (iterFadd_chain cent 100 4500 _ _ _ centChunk54 (iterFadd_chain cent 100 4400 _ _ _ centChunk55 (iterFadd_chain cent 100 4300 _ _ _ centChunk56 (iterFadd_chain cent 100 4200 _ _ _ centChunk57 (iterFadd_chain cent 100 4100 _ _ _ centChunk58 (iterFadd_chain cent 100 4000 _ _ _ centChunk59 (iterFadd_chain cent 100 3900 _ _ _ centChunk60 (iterFadd_chain cent 100 3800 _ _ _ centChunk61 (iterFadd_chain cent 100 3700 _ _ _ centChunk62 (iterFadd_chain cent 100 3600 _ _ _ centChunk63 (iterFadd_chain cent 100 3500 _ _ _ centChunk64 (iterFadd_chain cent 100 3400 _ _ _ centChunk65 (iterFadd_chain cent 100 3300 _ _ _ centChunk66 (iterFadd_chain cent 100 3200 _ _ _ centChunk67 (iterFadd_chain cent 100 3100 _ _ _ centChunk68 (iterFadd_chain cent 100 3000 _ _ _ centChunk69 (iterFadd_chain cent 100 2900 _ _ _ centChunk70 (iterFadd_chain cent 100 2800 _ _ _ centChunk71 (iterFadd_chain cent 100 2700 _ _ _ centChunk72 (iterFadd_chain cent 100 2600 _ _ _ centChunk73 (iterFadd_chain cent 100 2500 _ _ _ centChunk74 (iterFadd_chain cent 100 2400 _ _ _ centChunk75 (iterFadd_chain cent 100 2300 _ _ _ centChunk76 (iterFadd_chain cent 100 2200 _ _ _ centChunk77 (iterFadd_chain cent 100 2100 _ _ _ centChunk78 (iterFadd_chain cent 100 2000 _ _ _ centChunk79 (iterFadd_chain cent 100 1900 _ _ _ centChunk80 (iterFadd_chain cent 100 1800 _ _ _ centChunk81 (iterFadd_chain cent 100 1700 _ _ _ centChunk82 (iterFadd_chain cent 100 1600 _ _ _ centChunk83 (iterFadd_chain cent 100 1500 _ _ _ centChunk84 (iterFadd_chain cent 100 1400 _ _ _ centChunk85 (iterFadd_chain cent 100 1300 _ _ _ centChunk86 (iterFadd_chain cent 100 1200 _ _ _ centChunk87 (iterFadd_chain cent 100 1100 _ _ _ centChunk88 (iterFadd_chain cent 100 1000 _ _ _ centChunk89 (iterFadd_chain cent 100 900 _ _ _ centChunk90 (iterFadd_chain cent 100 800 _ _ _ centChunk91 (iterFadd_chain cent 100 700 _ _ _ centChunk92 (iterFadd_chain cent 100 600 _ _ _ centChunk93 (iterFadd_chain cent 100 500 _ _ _ centChunk94 (iterFadd_chain cent 100 400 _ _ _ centChunk95 (iterFadd_chain cent 100 300 _ _ _ centChunk96 (iterFadd_chain cent 100 200 _ _ _ centChunk97 (iterFadd_chain cent 100 100 _ _ _ centChunk98 centChunk99)))))))))))))))))))))))))))))))))))))))))))))))))))))))))))))))))))))))))))))))))))))))))))))))))))

lemma centExpense_amount : centExpense.amount = cent := rfl

lemma calculateTotals_total (l : List Expense) : (calculateTotals l).total = totalOf l := rfl

/-- C1 as stated is false: the aggregator accumulates with raw binary64
additions, and over 10000 records of amount 0.01 (the binary64 value of the
decimal 0.01) the computed total differs from the exact arithmetic sum of
the records' amounts — the accumulation is not exact decimal-safe
arithmetic. -/
theorem c1_counterexample :
    (calculateTotals centList).total ≠ (centList.map Expense.amount).sum := by
  have h1 : (calculateTotals centList).total = mkRat 7036874417767403 70368744177664 := by
    rw [calculateTotals_total]
    unfold centList
    rw [totalOf_replicate, centExpense_amount]
    exact centTotal
  have h2 : (centList.map Expense.amount).sum = (10000 : ℚ) * cent := by
    unfold centList
    rw [List.map_replicate, List.sum_replicate, nsmul_eq_mul, centExpense_amount]
    norm_num
  have h3 : cent = mkRat 5764607523034235 576460752303423488 := by decide
  rw [h1, h2, h3, Rat.mkRat_eq_div, Rat.mkRat_eq_div]
  norm_num

/-- C1 amended: the total is computed by raw binary64 floating-point
accumulation, so for 10000 records of value 0.01 it does not equal the
exact arithmetic sum of the amounts; the accumulated drift is nonetheless
smaller than half a minor currency unit (half a cent), so the displayed
two-decimal total is still the correct 100.00. -/
theorem c1_drift_below_half_cent :
    (calculateTotals centList).total ≠ (centList.map Expense.amount).sum ∧
    |(calculateTotals centList).total - (centList.map Expense.amount).sum|
      < 1 / 200 := by
  have h1 : (calculateTotals centList).total = mkRat 7036874417767403 70368744177664 := by
    rw [calculateTotals_total]
    unfold centList
    rw [totalOf_replicate, centExpense_amount]
    exact centTotal
  have h2 : (centList.map Expense.amount).sum = (10000 : ℚ) * cent := by
    unfold centList
    rw [List.map_replicate, List.sum_replicate, nsmul_eq_mul, centExpense_amount]
    norm_num
  have h3 : cent = mkRat 5764607523034235 576460752303423488 := by decide
  rw [h1, h2, h3, Rat.mkRat_eq_div, Rat.mkRat_eq_div]
  constructor
  · norm_num
  · rw [abs_sub_lt_iff]
    constructor
    · norm_num
    · norm_num


end ExpenseTracker
